import Mathlib

/-!
Verification of the Fibonacci retracement backtesting program
(`FibonacciRetracementBacktest.py`).

The development shallowly embeds the indicator pipeline (centered rolling
swing extrema, Fibonacci levels, NaN-row dropping, eager validation) and
the trade simulator (entry crossing detection, forward exit scan, account
bookkeeping).  Prices are modelled as rationals; dates as integers.  The
pandas centered rolling window of width `w` at index `i` spans
`[i - w / 2, i + (w - 1 - w / 2)]` and yields a value only when the whole
window lies inside the series (min_periods defaults to the window size).
-/

namespace FibBacktest

/-- One row of the raw input series (columns Date, High, Low, Close). -/
structure PriceBar where
  date : Int
  high : ℚ
  low : ℚ
  close : ℚ
  deriving DecidableEq, Inhabited

/-- A row after the indicator pipeline: swing extrema and Fibonacci levels
are defined (rows where they are NaN have been dropped). -/
structure AnnotatedBar where
  date : Int
  high : ℚ
  low : ℚ
  close : ℚ
  swingHigh : ℚ
  swingLow : ℚ
  fib38 : ℚ
  fib50 : ℚ
  fib61 : ℚ
  deriving DecidableEq, Inhabited

/-- A recorded transaction, as appended to `transactions` in the source.
`entryIdx`/`exitIdx` record the loop indices `i` and `j` at which the
entry fired and the exit was found. -/
structure Trade where
  entryIdx : Nat
  exitIdx : Nat
  entryDate : Int
  exitDate : Int
  entryPrice : ℚ
  exitPrice : ℚ
  shares : ℚ
  pnl : ℚ
  pnlPercent : ℚ
  totalPnl : ℚ
  totalPnlPercent : ℚ
  accountBalance : ℚ
  deriving DecidableEq, Inhabited

/-- The mutable state of one backtest run: `account_balance`, `total_pnl`,
`total_pnl_percent` and the `transactions` list. -/
structure SimState where
  accountBalance : ℚ
  totalPnl : ℚ
  totalPnlPercent : ℚ
  transactions : List Trade
  deriving DecidableEq, Inhabited

/-- The distinguishable `st.error` + `st.stop` exits of the pipeline. -/
inductive ValidationError where
  | emptyData
  | datasetTooSmall
  | allNaNSwing
  | allNaNFib
  deriving DecidableEq, Inhabited

/-- Maximum of a list of rationals, `none` on the empty list. -/
def listMax? : List ℚ → Option ℚ
  | [] => none
  | x :: xs => some (xs.foldl max x)

/-- Minimum of a list of rationals, `none` on the empty list. -/
def listMin? : List ℚ → Option ℚ
  | [] => none
  | x :: xs => some (xs.foldl min x)

/-- `data["High"].rolling(window=w, center=True).max()` at index `i`:
defined only when the centered window fits inside the series. -/
def swingHigh? (data : List PriceBar) (w i : Nat) : Option ℚ :=
  if w / 2 ≤ i ∧ i + (w - 1 - w / 2) < data.length then
    listMax? (((data.drop (i - w / 2)).take w).map (·.high))
  else none

/-- `data["Low"].rolling(window=w, center=True).min()` at index `i`. -/
def swingLow? (data : List PriceBar) (w i : Nat) : Option ℚ :=
  if w / 2 ≤ i ∧ i + (w - 1 - w / 2) < data.length then
    listMin? (((data.drop (i - w / 2)).take w).map (·.low))
  else none

/-- The annotated row at index `i` (Fib38/Fib50/Fib61 computed from the
swing extrema), or `none` where the rolling values are NaN; the `dropna`
step removes exactly the `none` rows. -/
def annotateBar (data : List PriceBar) (w i : Nat) : Option AnnotatedBar :=
  match data[i]?, swingHigh? data w i, swingLow? data w i with
  | some b, some sh, some sl =>
      some { date := b.date, high := b.high, low := b.low, close := b.close,
             swingHigh := sh, swingLow := sl,
             fib38 := sh - (sh - sl) * (382 / 1000),
             fib50 := sh - (sh - sl) * (1 / 2),
             fib61 := sh - (sh - sl) * (618 / 1000) }
  | _, _, _ => none

/-- The post-`dropna` annotated series handed to the backtesting loop. -/
def annotate (data : List PriceBar) (w : Nat) : List AnnotatedBar :=
  (List.range data.length).filterMap (annotateBar data w)

/-- The indicator pipeline with its eager validation steps, in source
order: empty data, dataset smaller than the rolling window, all-NaN
swing columns, all-NaN Fibonacci columns. -/
def runIndicator (data : List PriceBar) (w : Nat) :
    Except ValidationError (List AnnotatedBar) :=
  if data.length = 0 then .error .emptyData
  else if data.length < w then .error .datasetTooSmall
  else if ((List.range data.length).all fun i => (swingHigh? data w i).isNone) ||
          ((List.range data.length).all fun i => (swingLow? data w i).isNone) then
    .error .allNaNSwing
  else if (List.range data.length).all fun i => (annotateBar data w i).isNone then
    .error .allNaNFib
  else .ok (annotate data w)

/-- Whether an `Except` value is a success. -/
def exceptOk {ε α : Type} : Except ε α → Bool
  | .ok _ => true
  | .error _ => false

/-- Positional row access (`data.iloc[j]`); out-of-range reads never occur
on the executed paths. -/
def barAt (data : List AnnotatedBar) (j : Nat) : AnnotatedBar :=
  data.getD j default

/-- The entry signal of the source, lines 120-124:
`i > 0 and close[i] > fib50[i] and close[i-1] <= fib50[i]` — note that the
previous close is compared against the CURRENT bar's Fib50. -/
def entryCond (data : List AnnotatedBar) (i : Nat) : Bool :=
  decide (1 ≤ i) && decide ((barAt data i).fib50 < (barAt data i).close) &&
    decide ((barAt data (i - 1)).close ≤ (barAt data i).fib50)

/-- The entry signal as the specification document words it:
`close[i] > fib50[i]` and `close[i-1] <= fib50[i-1]` (previous close
against the PREVIOUS bar's Fib50). -/
def specEntryCond (data : List AnnotatedBar) (i : Nat) : Bool :=
  decide (1 ≤ i) && decide ((barAt data i).fib50 < (barAt data i).close) &&
    decide ((barAt data (i - 1)).close ≤ (barAt data (i - 1)).fib50)

/-- Fuel-indexed forward scan for `for j in range(j0, len(data))` stopping
at the first `j` with `high[j] >= swingHigh[j]`. -/
def findExitFrom (data : List AnnotatedBar) : Nat → Nat → Option Nat
  | 0, _ => none
  | fuel + 1, j =>
    if data.length ≤ j then none
    else if (barAt data j).swingHigh ≤ (barAt data j).high then some j
    else findExitFrom data fuel (j + 1)

/-- The exit scan of the source, lines 135-136: first `j` in
`range(i+1, len(data))` with `high[j] >= swingHigh[j]`. -/
def findExit (data : List AnnotatedBar) (i : Nat) : Option Nat :=
  findExitFrom data data.length (i + 1)

/-- One iteration of the outer backtesting loop at index `i`: if the entry
signal fires, size the position from the current balance, scan forward for
the exit, and on success apply the pnl and append the transaction. -/
def stepSim (rp : ℚ) (data : List AnnotatedBar) (s : SimState) (i : Nat) :
    SimState :=
  if entryCond data i then
    let entryBar := barAt data i
    let shares := rp / 100 * s.accountBalance / entryBar.close
    match findExit data i with
    | none => s
    | some j =>
      let exitBar := barAt data j
      let pnl := (exitBar.swingHigh - entryBar.close) * shares
      let pnlPercent := pnl / (entryBar.close * shares) * 100
      { accountBalance := s.accountBalance + pnl
        totalPnl := s.totalPnl + pnl
        totalPnlPercent := s.totalPnlPercent + pnlPercent
        transactions := s.transactions ++
          [{ entryIdx := i, exitIdx := j,
             entryDate := entryBar.date, exitDate := exitBar.date,
             entryPrice := entryBar.close, exitPrice := exitBar.swingHigh,
             shares := shares, pnl := pnl, pnlPercent := pnlPercent,
             totalPnl := s.totalPnl + pnl,
             totalPnlPercent := s.totalPnlPercent + pnlPercent,
             accountBalance := s.accountBalance + pnl }] }
  else s

/-- The initial simulation state (`account_balance = starting_balance`,
zero totals, empty transaction list). -/
def initState (startingBalance : ℚ) : SimState :=
  { accountBalance := startingBalance, totalPnl := 0, totalPnlPercent := 0,
    transactions := [] }

/-- Folding the step function over a list of indices. -/
def simFold (rp : ℚ) (data : List AnnotatedBar) (s : SimState)
    (l : List Nat) : SimState :=
  l.foldl (stepSim rp data) s

/-- The backtesting loop, lines 111-164: `rp` is the raw percentage input
(`risk_percent`), so the risk fraction is `rp / 100`. -/
def backtest (rp startingBalance : ℚ) (data : List AnnotatedBar) : SimState :=
  simFold rp data (initState startingBalance) (List.range data.length)

/-- The full pipeline from validated raw data to the simulation result. -/
def runBacktest (startingBalance rp : ℚ) (data : List PriceBar) (w : Nat) :
    Except ValidationError SimState :=
  (runIndicator data w).map (backtest rp startingBalance)

/-- The most recently appended transaction. -/
def latest (s : SimState) : Trade :=
  s.transactions.getLastD default

/-- No index strictly between `i` and `j` satisfies the exit condition. -/
def noEarlierExit (data : List AnnotatedBar) (i j : Nat) : Bool :=
  (List.range j).all fun k =>
    decide (k ≤ i) || decide ((barAt data k).high < (barAt data k).swingHigh)

/-- No index after `i` satisfies the exit condition at all. -/
def noExitAfter (data : List AnnotatedBar) (i : Nat) : Bool :=
  (List.range data.length).all fun k =>
    decide (k ≤ i) || decide ((barAt data k).high < (barAt data k).swingHigh)

/-- Sum of the recorded trades' pnl values. -/
def sumPnl (ts : List Trade) : ℚ := (ts.map Trade.pnl).sum

/-- Each successive trade was sized as `rp/100` of the running balance at
its own entry time, the balance advancing by each trade's pnl. -/
def sharesOk (rp : ℚ) : ℚ → List Trade → Prop
  | _, [] => True
  | bal, t :: ts =>
      t.shares = rp / 100 * bal / t.entryPrice ∧ sharesOk rp (bal + t.pnl) ts

/-- Adjacent closes strictly decrease along the series. -/
def strictlyDecClose (data : List AnnotatedBar) : Bool :=
  (List.range data.length).all fun i =>
    decide (data.length ≤ i + 1) ||
      decide ((barAt data (i + 1)).close < (barAt data i).close)

/-- Adjacent dates strictly increase along the series. -/
def datesAscending (data : List AnnotatedBar) : Bool :=
  (List.range data.length).all fun i =>
    decide (data.length ≤ i + 1) ||
      decide ((barAt data i).date < (barAt data (i + 1)).date)

/-- The transaction record built by the fire branch of `stepSim` (checked
against `stepSim` itself in `stepSim_fire`). -/
def mkTradeAt (rp : ℚ) (data : List AnnotatedBar) (s : SimState) (i j : Nat) :
    Trade :=
  let entryBar := barAt data i
  let shares := rp / 100 * s.accountBalance / entryBar.close
  let exitBar := barAt data j
  let pnl := (exitBar.swingHigh - entryBar.close) * shares
  let pnlPercent := pnl / (entryBar.close * shares) * 100
  { entryIdx := i, exitIdx := j,
    entryDate := entryBar.date, exitDate := exitBar.date,
    entryPrice := entryBar.close, exitPrice := exitBar.swingHigh,
    shares := shares, pnl := pnl, pnlPercent := pnlPercent,
    totalPnl := s.totalPnl + pnl,
    totalPnlPercent := s.totalPnlPercent + pnlPercent,
    accountBalance := s.accountBalance + pnl }

/-- The state produced by the fire branch of `stepSim` (checked against
`stepSim` itself in `stepSim_fire`). -/
def fireState (rp : ℚ) (data : List AnnotatedBar) (s : SimState) (i j : Nat) :
    SimState :=
  { accountBalance := s.accountBalance + (mkTradeAt rp data s i j).pnl
    totalPnl := s.totalPnl + (mkTradeAt rp data s i j).pnl
    totalPnlPercent := s.totalPnlPercent + (mkTradeAt rp data s i j).pnlPercent
    transactions := s.transactions ++ [mkTradeAt rp data s i j] }

/-- The running invariant of the backtesting fold: balance and total pnl
agree with the recorded trades, each trade was sized from the balance at
its own processing time, each trade's exit lies strictly after its entry
and inside the series with matching dates and entry price, the log is
ordered by entry index, and every recorded entry index is at most every
still-unprocessed loop index. -/
def Inv (rp start : ℚ) (data : List AnnotatedBar) (l : List Nat)
    (s : SimState) : Prop :=
  s.accountBalance = start + sumPnl s.transactions ∧
  s.totalPnl = sumPnl s.transactions ∧
  sharesOk rp start s.transactions ∧
  (∀ t ∈ s.transactions,
      t.entryIdx < t.exitIdx ∧ t.exitIdx < data.length ∧
      t.entryDate = (barAt data t.entryIdx).date ∧
      t.exitDate = (barAt data t.exitIdx).date ∧
      t.entryPrice = (barAt data t.entryIdx).close) ∧
  s.transactions.Pairwise (fun a b => a.entryIdx ≤ b.entryIdx) ∧
  (∀ t ∈ s.transactions, ∀ k ∈ l, t.entryIdx ≤ k)

/-- Shorthand for building annotated bars of concrete test series; the
fields the simulator never reads are fixed to 0. -/
def mkA (date : Int) (high close sh f50 : ℚ) : AnnotatedBar :=
  { date := date, high := high, low := 0, close := close,
    swingHigh := sh, swingLow := 0, fib38 := 0, fib50 := f50, fib61 := 0 }

/-- Concrete annotated series separating the source's entry condition from
the specification's: at index 1 the close rises above `fib50[1] = 7` with
`close[0] = 6 ≤ 7`, yet `close[0] > fib50[0] = 5`. -/
def dataC1 : List AnnotatedBar :=
  [mkA 0 0 6 100 5, mkA 1 0 8 100 7, mkA 2 10 1 9 9]

/-- Concrete annotated series with two overlapping entries: entries fire at
indices 1 and 2, and both exit at index 3. -/
def dataC2 : List AnnotatedBar :=
  [mkA 0 0 4 100 3, mkA 1 0 6 100 5, mkA 2 1 7 100 6,
   mkA 3 10 0 10 50, mkA 4 0 0 100 50]

/-- Concrete raw series of five bars, used with `swingLength = 5`. -/
def dataC6 : List PriceBar :=
  [⟨0, 10, 1, 5⟩, ⟨1, 11, 2, 5⟩, ⟨2, 12, 3, 5⟩, ⟨3, 13, 4, 5⟩,
   ⟨4, 14, 5, 5⟩]

/-- Concrete raw series of seven bars, used with `swingLength = 7`. -/
def dataC6b : List PriceBar :=
  [⟨0, 10, 1, 5⟩, ⟨1, 11, 2, 5⟩, ⟨2, 12, 3, 5⟩, ⟨3, 13, 4, 5⟩,
   ⟨4, 14, 5, 5⟩, ⟨5, 15, 6, 5⟩, ⟨6, 16, 7, 5⟩]

/-- Concrete one-bar raw series. -/
def dataC4 : List PriceBar := [⟨0, 10, 4, 5⟩]

/-- Concrete one-bar raw series for the single-bar boundary case. -/
def dataC8 : List PriceBar := [⟨0, 3, 1, 2⟩]

/-- The single annotated bar that `annotate dataC4 1` produces. -/
def barC4 : AnnotatedBar :=
  { date := 0, high := 10, low := 4, close := 5, swingHigh := 10,
    swingLow := 4, fib38 := 10 - (10 - 4) * (382 / 1000),
    fib50 := 10 - (10 - 4) * (1 / 2),
    fib61 := 10 - (10 - 4) * (618 / 1000) }

/-- Concrete annotated series with strictly decreasing closes. -/
def dataC9 : List AnnotatedBar :=
  [mkA 0 1 3 2 (5 / 2), mkA 1 1 2 2 (5 / 2), mkA 2 1 1 2 (5 / 2)]

/-- The first trade recorded when backtesting `dataC2`. -/
def tC2a : Trade := (backtest 5 10000 dataC2).transactions.getD 0 default

/-- The second trade recorded when backtesting `dataC2`. -/
def tC2b : Trade := (backtest 5 10000 dataC2).transactions.getD 1 default

theorem stepSim_not_fire (rp : ℚ) (data : List AnnotatedBar) (s : SimState)
    (i : Nat) (h : entryCond data i = false) : stepSim rp data s i = s := by
  simp [stepSim, h]

theorem stepSim_no_exit (rp : ℚ) (data : List AnnotatedBar) (s : SimState)
    (i : Nat) (h1 : entryCond data i = true) (h2 : findExit data i = none) :
    stepSim rp data s i = s := by
  simp [stepSim, h1, h2]

theorem stepSim_fire (rp : ℚ) (data : List AnnotatedBar) (s : SimState)
    (i j : Nat) (h1 : entryCond data i = true) (h2 : findExit data i = some j) :
    stepSim rp data s i = fireState rp data s i j := by
  simp [stepSim, h1, h2, fireState, mkTradeAt]

theorem findExitFrom_some_spec (data : List AnnotatedBar) :
    ∀ (fuel j0 j : Nat), findExitFrom data fuel j0 = some j →
      j0 ≤ j ∧ j < data.length ∧
      (barAt data j).swingHigh ≤ (barAt data j).high ∧
      ∀ k, j0 ≤ k → k < j → (barAt data k).high < (barAt data k).swingHigh := by
  intro fuel
  induction fuel with
  | zero => intro j0 j h; simp [findExitFrom] at h
  | succ n ih =>
    intro j0 j h
    unfold findExitFrom at h
    by_cases hlen : data.length ≤ j0
    · rw [if_pos hlen] at h; exact absurd h (by simp)
    · rw [if_neg hlen] at h
      by_cases hcond : (barAt data j0).swingHigh ≤ (barAt data j0).high
      · rw [if_pos hcond] at h
        injection h with h
        subst h
        exact ⟨le_refl _, by omega, hcond, fun k hk1 hk2 => by omega⟩
      · rw [if_neg hcond] at h
        obtain ⟨h1, h2, h3, h4⟩ := ih (j0 + 1) j h
        refine ⟨by omega, h2, h3, fun k hk1 hk2 => ?_⟩
        by_cases hkj : k = j0
        · subst hkj; exact lt_of_not_le hcond
        · exact h4 k (by omega) hk2

theorem findExitFrom_none_of (data : List AnnotatedBar) :
    ∀ (fuel j0 : Nat),
      (∀ k, j0 ≤ k → k < data.length →
        (barAt data k).high < (barAt data k).swingHigh) →
      findExitFrom data fuel j0 = none := by
  intro fuel
  induction fuel with
  | zero => intro j0 _; rfl
  | succ n ih =>
    intro j0 h
    unfold findExitFrom
    by_cases hlen : data.length ≤ j0
    · rw [if_pos hlen]
    · rw [if_neg hlen,
        if_neg (not_le_of_lt (h j0 (le_refl _) (by omega)))]
      exact ih (j0 + 1) fun k hk1 hk2 => h k (by omega) hk2

theorem findExit_some_spec (data : List AnnotatedBar) (i j : Nat)
    (h : findExit data i = some j) :
    i < j ∧ j < data.length ∧
    (barAt data j).swingHigh ≤ (barAt data j).high ∧
    ∀ k, i < k → k < j → (barAt data k).high < (barAt data k).swingHigh := by
  obtain ⟨h1, h2, h3, h4⟩ := findExitFrom_some_spec data data.length (i + 1) j h
  exact ⟨by omega, h2, h3, fun k hk1 hk2 => h4 k (by omega) hk2⟩

theorem findExit_none_of (data : List AnnotatedBar) (i : Nat)
    (h : ∀ k, i < k → k < data.length →
      (barAt data k).high < (barAt data k).swingHigh) :
    findExit data i = none :=
  findExitFrom_none_of data data.length (i + 1) fun k hk1 hk2 =>
    h k (by omega) hk2

theorem noExitAfter_findExit (data : List AnnotatedBar) (i : Nat)
    (h : noExitAfter data i = true) : findExit data i = none := by
  simp only [noExitAfter, List.all_eq_true, List.mem_range, Bool.or_eq_true,
    decide_eq_true_eq] at h
  refine findExit_none_of data i fun k hk1 hk2 => ?_
  rcases h k hk2 with h' | h'
  · omega
  · exact h'

theorem noEarlierExit_of (data : List AnnotatedBar) (i j : Nat)
    (h : ∀ k, i < k → k < j →
      (barAt data k).high < (barAt data k).swingHigh) :
    noEarlierExit data i j = true := by
  simp only [noEarlierExit, List.all_eq_true, List.mem_range, Bool.or_eq_true,
    decide_eq_true_eq]
  intro k hk
  by_cases hki : k ≤ i
  · exact Or.inl hki
  · exact Or.inr (h k (by omega) hk)

theorem simFold_nil (rp : ℚ) (data : List AnnotatedBar) (s : SimState) :
    simFold rp data s [] = s := rfl

theorem simFold_cons (rp : ℚ) (data : List AnnotatedBar) (s : SimState)
    (i : Nat) (l : List Nat) :
    simFold rp data s (i :: l) = simFold rp data (stepSim rp data s i) l := rfl

theorem simFold_no_fire (rp : ℚ) (data : List AnnotatedBar) :
    ∀ (l : List Nat) (s : SimState), (∀ i ∈ l, entryCond data i = false) →
      simFold rp data s l = s := by
  intro l
  induction l with
  | nil => intro s _; rfl
  | cons a l ih =>
    intro s h
    rw [simFold_cons, stepSim_not_fire rp data s a (h a (by simp))]
    exact ih s fun i hi => h i (by simp [hi])

theorem sumPnl_nil : sumPnl [] = 0 := rfl

theorem sumPnl_cons (t : Trade) (l : List Trade) :
    sumPnl (t :: l) = t.pnl + sumPnl l := by
  simp [sumPnl]

theorem sumPnl_append_single (l : List Trade) (t : Trade) :
    sumPnl (l ++ [t]) = sumPnl l + t.pnl := by
  simp [sumPnl]

theorem sharesOk_append (rp : ℚ) (t : Trade) :
    ∀ (l : List Trade) (bal : ℚ), sharesOk rp bal l →
      t.shares = rp / 100 * (bal + sumPnl l) / t.entryPrice →
      sharesOk rp bal (l ++ [t]) := by
  intro l
  induction l with
  | nil =>
    intro bal _ ht
    refine ⟨?_, trivial⟩
    rw [ht, sumPnl_nil, add_zero]
  | cons a l ih =>
    intro bal h ht
    refine ⟨h.1, ih (bal + a.pnl) h.2 ?_⟩
    rw [ht, sumPnl_cons, ← add_assoc]

theorem Inv_tail (rp start : ℚ) (data : List AnnotatedBar) (i : Nat)
    (l : List Nat) (s : SimState) (h : Inv rp start data (i :: l) s) :
    Inv rp start data l s := by
  obtain ⟨h1, h2, h3, h4, h5, h6⟩ := h
  exact ⟨h1, h2, h3, h4, h5,
    fun t ht k hk => h6 t ht k (List.mem_cons_of_mem i hk)⟩

theorem stepSim_inv (rp start : ℚ) (data : List AnnotatedBar) (i : Nat)
    (l : List Nat) (s : SimState) (hInv : Inv rp start data (i :: l) s)
    (hlt : ∀ k ∈ l, i ≤ k) :
    Inv rp start data l (stepSim rp data s i) := by
  by_cases hf : entryCond data i = true
  · cases hj : findExit data i with
    | none => rw [stepSim_no_exit rp data s i hf hj]; exact Inv_tail _ _ _ _ _ _ hInv
    | some j =>
      rw [stepSim_fire rp data s i j hf hj]
      obtain ⟨hbal, htot, hsh, hgeo, hpw, hbound⟩ := hInv
      obtain ⟨hij, hjlen, -, -⟩ := findExit_some_spec data i j hj
      refine ⟨?_, ?_, ?_, ?_, ?_, ?_⟩
      · show s.accountBalance + (mkTradeAt rp data s i j).pnl =
          start + sumPnl (s.transactions ++ [mkTradeAt rp data s i j])
        rw [sumPnl_append_single, hbal, add_assoc]
      · show s.totalPnl + (mkTradeAt rp data s i j).pnl =
          sumPnl (s.transactions ++ [mkTradeAt rp data s i j])
        rw [sumPnl_append_single, htot]
      · refine sharesOk_append rp _ _ _ hsh ?_
        show rp / 100 * s.accountBalance / (barAt data i).close =
          rp / 100 * (start + sumPnl s.transactions) / (barAt data i).close
        rw [hbal]
      · intro t ht
        rcases List.mem_append.mp ht with h | h
        · exact hgeo t h
        · rw [List.mem_singleton.mp h]
          exact ⟨hij, hjlen, rfl, rfl, rfl⟩
      · show List.Pairwise (fun a b => a.entryIdx ≤ b.entryIdx)
          (s.transactions ++ [mkTradeAt rp data s i j])
        rw [List.pairwise_append]
        refine ⟨hpw, List.pairwise_singleton _ _, fun a ha b hb => ?_⟩
        rw [List.mem_singleton.mp hb]
        exact hbound a ha i (List.mem_cons_self i l)
      · intro t ht k hk
        rcases List.mem_append.mp ht with h | h
        · exact hbound t h k (List.mem_cons_of_mem i hk)
        · rw [List.mem_singleton.mp h]
          show i ≤ k
          exact hlt k hk
  · rw [stepSim_not_fire rp data s i (Bool.eq_false_iff.mpr hf)]
    exact Inv_tail _ _ _ _ _ _ hInv

theorem simFold_inv (rp start : ℚ) (data : List AnnotatedBar) :
    ∀ (l : List Nat) (s : SimState), Inv rp start data l s →
      l.Pairwise (· ≤ ·) → Inv rp start data [] (simFold rp data s l) := by
  intro l
  induction l with
  | nil => intro s h _; exact h
  | cons a l ih =>
    intro s h hpw
    rw [simFold_cons]
    obtain ⟨hal, hl⟩ := List.pairwise_cons.mp hpw
    exact ih (stepSim rp data s a) (stepSim_inv rp start data a l s h hal) hl

theorem Inv_init (rp start : ℚ) (data : List AnnotatedBar) (l : List Nat) :
    Inv rp start data l (initState start) := by
  refine ⟨?_, ?_, trivial, ?_, ?_, ?_⟩
  · show start = start + sumPnl []
    rw [sumPnl_nil, add_zero]
  · show (0 : ℚ) = sumPnl []
    rw [sumPnl_nil]
  · intro t ht; exact absurd ht (by simp [initState])
  · exact List.Pairwise.nil
  · intro t ht; exact absurd ht (by simp [initState])

theorem backtest_inv (rp start : ℚ) (data : List AnnotatedBar) :
    Inv rp start data [] (backtest rp start data) :=
  simFold_inv rp start data (List.range data.length) (initState start)
    (Inv_init rp start data _) (List.sorted_le_range data.length)

theorem strictlyDec_step (data : List AnnotatedBar)
    (hdec : strictlyDecClose data = true) (k : Nat)
    (hk : k + 1 < data.length) :
    (barAt data (k + 1)).close < (barAt data k).close := by
  simp only [strictlyDecClose, List.all_eq_true, List.mem_range,
    Bool.or_eq_true, decide_eq_true_eq] at hdec
  rcases hdec k (by omega) with h | h
  · omega
  · exact h

theorem entryCond_false_of_dec (data : List AnnotatedBar)
    (hdec : strictlyDecClose data = true) (i : Nat) (hi : i < data.length) :
    entryCond data i = false := by
  rw [Bool.eq_false_iff]
  intro h
  simp only [entryCond, Bool.and_eq_true, decide_eq_true_eq] at h
  obtain ⟨⟨h1, h2⟩, h3⟩ := h
  have hstep := strictlyDec_step data hdec (i - 1) (by omega)
  rw [Nat.sub_add_cancel h1] at hstep
  linarith

theorem datesAscending_step (data : List AnnotatedBar)
    (hd : datesAscending data = true) (k : Nat) (hk : k + 1 < data.length) :
    (barAt data k).date < (barAt data (k + 1)).date := by
  simp only [datesAscending, List.all_eq_true, List.mem_range,
    Bool.or_eq_true, decide_eq_true_eq] at hd
  rcases hd k (by omega) with h | h
  · omega
  · exact h

theorem dates_mono (data : List AnnotatedBar)
    (hd : datesAscending data = true) :
    ∀ (j : Nat), j < data.length → ∀ (i : Nat), i < j →
      (barAt data i).date < (barAt data j).date := by
  intro j
  induction j with
  | zero => intro _ i hi; omega
  | succ n ih =>
    intro hj i hi
    have hstep := datesAscending_step data hd n hj
    rcases Nat.lt_succ_iff_lt_or_eq.mp hi with h | h
    · exact lt_trans (ih (by omega) i h) hstep
    · rw [h]; exact hstep

theorem listMax?_isSome (l : List ℚ) (h : l ≠ []) :
    (listMax? l).isSome = true := by
  cases l with
  | nil => exact absurd rfl h
  | cons x xs => rfl

theorem listMin?_isSome (l : List ℚ) (h : l ≠ []) :
    (listMin? l).isSome = true := by
  cases l with
  | nil => exact absurd rfl h
  | cons x xs => rfl

theorem swingHigh?_isSome_iff (data : List PriceBar) (w i : Nat)
    (hw : 1 ≤ w) :
    (swingHigh? data w i).isSome = true ↔
      w / 2 ≤ i ∧ i + (w - 1 - w / 2) < data.length := by
  unfold swingHigh?
  by_cases h : w / 2 ≤ i ∧ i + (w - 1 - w / 2) < data.length
  · rw [if_pos h]
    refine iff_of_true ?_ h
    apply listMax?_isSome
    intro hnil
    have hlen := congrArg List.length hnil
    rw [List.length_map, List.length_take, List.length_drop,
      List.length_nil] at hlen
    omega
  · rw [if_neg h]
    simp [h]

theorem swingLow?_isSome_iff (data : List PriceBar) (w i : Nat)
    (hw : 1 ≤ w) :
    (swingLow? data w i).isSome = true ↔
      w / 2 ≤ i ∧ i + (w - 1 - w / 2) < data.length := by
  unfold swingLow?
  by_cases h : w / 2 ≤ i ∧ i + (w - 1 - w / 2) < data.length
  · rw [if_pos h]
    refine iff_of_true ?_ h
    apply listMin?_isSome
    intro hnil
    have hlen := congrArg List.length hnil
    rw [List.length_map, List.length_take, List.length_drop,
      List.length_nil] at hlen
    omega
  · rw [if_neg h]
    simp [h]

theorem annotateBar_isSome (data : List PriceBar) (w i : Nat)
    (hi : i < data.length)
    (hsh : (swingHigh? data w i).isSome = true)
    (hsl : (swingLow? data w i).isSome = true) :
    (annotateBar data w i).isSome = true := by
  obtain ⟨vh, hvh⟩ := Option.isSome_iff_exists.mp hsh
  obtain ⟨vl, hvl⟩ := Option.isSome_iff_exists.mp hsl
  unfold annotateBar
  rw [List.getElem?_eq_getElem hi, hvh, hvl]
  rfl

theorem annotateBar_fib (data : List PriceBar) (w i : Nat) (b : AnnotatedBar)
    (h : annotateBar data w i = some b) :
    b.fib38 = b.swingHigh - (b.swingHigh - b.swingLow) * (382 / 1000) ∧
    b.fib50 = b.swingHigh - (b.swingHigh - b.swingLow) * (1 / 2) ∧
    b.fib61 = b.swingHigh - (b.swingHigh - b.swingLow) * (618 / 1000) := by
  unfold annotateBar at h
  split at h
  · injection h with h
    subst h
    exact ⟨rfl, rfl, rfl⟩
  · exact absurd h (by simp)

/-- C3: for every simulation run, the ending account balance equals the
starting balance plus the accumulated total pnl, exactly, for any trade
log produced (including the empty one). -/
theorem C3_conservation (rp start : ℚ) (data : List AnnotatedBar) :
    (backtest rp start data).accountBalance =
      start + (backtest rp start data).totalPnl := by
  obtain ⟨h1, h2, -, -, -, -⟩ := backtest_inv rp start data
  rw [h1, h2]

/-- C8: a one-bar series makes the Indicator Engine fail with the
dataset-too-small validation error, for every swing length the program's
slider admits (its range is 5 to 50). -/
theorem C8_one_bar_error (data : List PriceBar) (w : Nat)
    (hlen : data.length = 1) (hw1 : 5 ≤ w) (hw2 : w ≤ 50) :
    runIndicator data w = .error .datasetTooSmall := by
  unfold runIndicator
  rw [if_neg (by omega), if_pos (by omega)]

/-- C8 witness: the one-bar series `dataC8` with swing length 5. -/
theorem C8_one_bar_error_witness :
    runIndicator dataC8 5 = .error .datasetTooSmall :=
  C8_one_bar_error dataC8 5 rfl (by norm_num) (by norm_num)

/-- C9: a series whose closes strictly decrease never fires the entry
condition, so the backtest records no trades. -/
theorem C9_no_trades (rp start : ℚ) (data : List AnnotatedBar)
    (hdec : strictlyDecClose data = true) :
    (backtest rp start data).transactions = [] := by
  unfold backtest
  rw [simFold_no_fire rp data (List.range data.length) (initState start)
    fun i hi => entryCond_false_of_dec data hdec i (List.mem_range.mp hi)]
  rfl

/-- C9 witness: the strictly decreasing series `dataC9`. -/
theorem C9_no_trades_witness :
    (backtest 5 10000 dataC9).transactions = [] :=
  C9_no_trades 5 10000 dataC9 (by decide)

/-- C10: every recorded trade exits at a strictly later bar than it
entered, with a strictly later date when the series' dates ascend, and
the trade log is ordered by non-decreasing entry index. -/
theorem C10_trade_ordering (rp start : ℚ) (data : List AnnotatedBar)
    (hd : datesAscending data = true) :
    (∀ t ∈ (backtest rp start data).transactions,
        t.entryIdx < t.exitIdx ∧ t.entryDate < t.exitDate) ∧
    (backtest rp start data).transactions.Pairwise
      (fun a b => a.entryIdx ≤ b.entryIdx) := by
  obtain ⟨-, -, -, hgeo, hpw, -⟩ := backtest_inv rp start data
  refine ⟨fun t ht => ?_, hpw⟩
  obtain ⟨h1, h2, h3, h4, -⟩ := hgeo t ht
  refine ⟨h1, ?_⟩
  rw [h3, h4]
  exact dates_mono data hd t.exitIdx h2 t.entryIdx h1

/-- C10 witness: the two-trade series `dataC2` with ascending dates. -/
theorem C10_trade_ordering_witness :
    (backtest 5 10000 dataC2).transactions.Pairwise
      (fun a b => a.entryIdx ≤ b.entryIdx) :=
  (C10_trade_ordering 5 10000 dataC2 (by decide)).2

/-- C2 counterexample: on `dataC2` the second entry fires (index 2) before
the first trade's exit bar (index 3), yet its share count is NOT computed
from the pre-exit balance 10000; it is computed from the balance with the
first trade's pnl already applied, because the exit scan runs eagerly at
entry time. -/
theorem C2_counterexample :
    (backtest 5 10000 dataC2).transactions.length = 2 ∧
    tC2b.entryIdx < tC2a.exitIdx ∧
    tC2b.shares ≠ 5 / 100 * 10000 / tC2b.entryPrice ∧
    tC2b.shares = 5 / 100 * (10000 + tC2a.pnl) / tC2b.entryPrice := by
  refine ⟨by decide, by decide, ?_, ?_⟩
  · rw [show tC2b.shares =
        5 / 100 * (10000 + (10 - 6) * (5 / 100 * 10000 / 6)) / 7 from rfl,
      show tC2b.entryPrice = (7 : ℚ) from rfl]
    norm_num
  · rw [show tC2b.shares =
        5 / 100 * (10000 + (10 - 6) * (5 / 100 * 10000 / 6)) / 7 from rfl,
      show tC2b.entryPrice = (7 : ℚ) from rfl,
      show tC2a.pnl = (10 - 6) * (5 / 100 * 10000 / 6) from rfl]

/-- C2 amended: when two entries both produce recorded trades, each is
sized from the account balance current at its own processing time; in
particular the second trade's shares reflect the first trade's pnl (the
exit is applied eagerly during the first entry's iteration), even when the
second entry bar precedes the first trade's exit bar. -/
theorem C2_second_entry_sizing (rp start : ℚ) (data : List AnnotatedBar)
    (t1 t2 : Trade) (rest : List Trade)
    (h : (backtest rp start data).transactions = t1 :: t2 :: rest)
    (_hov : t2.entryIdx < t1.exitIdx) :
    t1.shares = rp / 100 * start / t1.entryPrice ∧
    t2.shares = rp / 100 * (start + t1.pnl) / t2.entryPrice := by
  obtain ⟨-, -, hsh, -, -, -⟩ := backtest_inv rp start data
  rw [h] at hsh
  exact ⟨hsh.1, hsh.2.1⟩

/-- C2 witness: both trades of `dataC2`, whose entries overlap the first
trade's open interval. -/
theorem C2_second_entry_sizing_witness :
    tC2a.shares = 5 / 100 * 10000 / tC2a.entryPrice ∧
    tC2b.shares = 5 / 100 * (10000 + tC2a.pnl) / tC2b.entryPrice :=
  C2_second_entry_sizing 5 10000 dataC2 tC2a tC2b [] rfl (by decide)

/-- C1 counterexample: on `dataC1` the specification's entry condition
(previous close against the PREVIOUS bar's Fib50) holds at no index, yet
the simulator records a trade: the source compares the previous close
against the CURRENT bar's Fib50. -/
theorem C1_counterexample :
    ((List.range dataC1.length).all fun i => !(specEntryCond dataC1 i)) =
      true ∧
    (backtest 5 10000 dataC1).transactions.length = 1 :=
  ⟨by decide, by decide⟩

/-- C1 amended: an entry fires at bar `i ≥ 1` when `close[i] > fib50[i]`
and `close[i-1] ≤ fib50[i]` (the previous close is compared against the
CURRENT bar's Fib50 level, not the previous bar's); on trigger, with an
exit available, the appended trade has `shares =
(risk_percent/100 × accountBalance) / close[i]`, `entryPrice = close[i]`
and `entryDate = date[i]`. -/
theorem C1_entry_rule (rp : ℚ) (data : List AnnotatedBar) (s : SimState)
    (i j : Nat) (hi : 1 ≤ i)
    (hgt : (barAt data i).fib50 < (barAt data i).close)
    (hle : (barAt data (i - 1)).close ≤ (barAt data i).fib50)
    (hexit : findExit data i = some j) :
    (latest (stepSim rp data s i)).entryIdx = i ∧
    (latest (stepSim rp data s i)).entryPrice = (barAt data i).close ∧
    (latest (stepSim rp data s i)).entryDate = (barAt data i).date ∧
    (latest (stepSim rp data s i)).shares =
      rp / 100 * s.accountBalance / (barAt data i).close ∧
    (stepSim rp data s i).transactions =
      s.transactions ++ [latest (stepSim rp data s i)] := by
  have hf : entryCond data i = true := by
    simp [entryCond, hi, hgt, hle]
  rw [stepSim_fire rp data s i j hf hexit]
  have hlast : latest (fireState rp data s i j) = mkTradeAt rp data s i j := by
    show (s.transactions ++ [mkTradeAt rp data s i j]).getLastD default = _
    exact List.getLastD_concat _ _ _
  rw [hlast]
  exact ⟨rfl, rfl, rfl, rfl, rfl⟩

/-- C1 witness: the entry at index 1 of `dataC1`. -/
theorem C1_entry_rule_witness :
    (latest (stepSim 5 dataC1 (initState 10000) 1)).entryIdx = 1 ∧
    (latest (stepSim 5 dataC1 (initState 10000) 1)).entryPrice =
      (barAt dataC1 1).close ∧
    (latest (stepSim 5 dataC1 (initState 10000) 1)).entryDate =
      (barAt dataC1 1).date ∧
    (latest (stepSim 5 dataC1 (initState 10000) 1)).shares =
      5 / 100 * (initState 10000).accountBalance / (barAt dataC1 1).close ∧
    (stepSim 5 dataC1 (initState 10000) 1).transactions =
      (initState 10000).transactions ++
        [latest (stepSim 5 dataC1 (initState 10000) 1)] :=
  C1_entry_rule 5 dataC1 (initState 10000) 1 2 (by norm_num) (by decide)
    (by decide) (by decide)

/-- C4: on every annotated bar, the Fibonacci levels are ordered
`fib38 ≥ fib50 ≥ fib61` whenever `swingHigh ≥ swingLow`, each level being
`swingHigh − (swingHigh − swingLow) × fraction` for fractions
0.382, 0.5, 0.618. -/
theorem C4_fib_monotonic (data : List PriceBar) (w : Nat) (b : AnnotatedBar)
    (hb : b ∈ annotate data w) (hsw : b.swingLow ≤ b.swingHigh) :
    b.fib61 ≤ b.fib50 ∧ b.fib50 ≤ b.fib38 := by
  obtain ⟨i, -, hi⟩ := List.mem_filterMap.mp hb
  obtain ⟨h38, h50, h61⟩ := annotateBar_fib data w i b hi
  have hd : (0 : ℚ) ≤ b.swingHigh - b.swingLow := by linarith
  constructor
  · rw [h61, h50]
    have := mul_le_mul_of_nonneg_left
      (show (1 / 2 : ℚ) ≤ 618 / 1000 by norm_num) hd
    linarith
  · rw [h50, h38]
    have := mul_le_mul_of_nonneg_left
      (show (382 / 1000 : ℚ) ≤ 1 / 2 by norm_num) hd
    linarith

/-- C4 witness: the single annotated bar of `dataC4`. -/
theorem C4_fib_monotonic_witness :
    barC4.fib61 ≤ barC4.fib50 ∧ barC4.fib50 ≤ barC4.fib38 :=
  C4_fib_monotonic dataC4 1 barC4
    ((show annotate dataC4 1 = [barC4] from rfl) ▸
      List.mem_singleton.mpr rfl)
    (by decide)

/-- C5: for an entry fired at index `i`, the simulator scans forward from
`i+1` and closes the trade at the first index `j` with
`high[j] ≥ swingHigh[j]`, recording `exitPrice = swingHigh[j]`,
`exitDate = date[j]`, `pnl = (exitPrice − entryPrice) × shares`,
`pnlPercent = pnl / (entryPrice × shares) × 100`, and adding the pnl to
the balance; if no such index exists, nothing is recorded and the state
is unchanged. -/
theorem C5_exit_rule (rp : ℚ) (data : List AnnotatedBar) (s : SimState)
    (i : Nat) (hfire : entryCond data i = true) :
    (noExitAfter data i = true → stepSim rp data s i = s) ∧
    ∀ j, findExit data i = some j →
      i < j ∧ j < data.length ∧
      (barAt data j).swingHigh ≤ (barAt data j).high ∧
      noEarlierExit data i j = true ∧
      (latest (stepSim rp data s i)).exitPrice = (barAt data j).swingHigh ∧
      (latest (stepSim rp data s i)).exitDate = (barAt data j).date ∧
      (latest (stepSim rp data s i)).pnl =
        ((latest (stepSim rp data s i)).exitPrice -
          (latest (stepSim rp data s i)).entryPrice) *
          (latest (stepSim rp data s i)).shares ∧
      (latest (stepSim rp data s i)).pnlPercent =
        (latest (stepSim rp data s i)).pnl /
          ((latest (stepSim rp data s i)).entryPrice *
            (latest (stepSim rp data s i)).shares) * 100 ∧
      (stepSim rp data s i).transactions.length =
        s.transactions.length + 1 ∧
      (stepSim rp data s i).accountBalance =
        s.accountBalance + (latest (stepSim rp data s i)).pnl := by
  constructor
  · intro hno
    exact stepSim_no_exit rp data s i hfire (noExitAfter_findExit data i hno)
  · intro j hj
    obtain ⟨h1, h2, h3, h4⟩ := findExit_some_spec data i j hj
    rw [stepSim_fire rp data s i j hfire hj]
    have hlast : latest (fireState rp data s i j) = mkTradeAt rp data s i j := by
      show (s.transactions ++ [mkTradeAt rp data s i j]).getLastD default = _
      exact List.getLastD_concat _ _ _
    rw [hlast]
    refine ⟨h1, h2, h3, noEarlierExit_of data i j h4, rfl, rfl, rfl, rfl,
      ?_, rfl⟩
    show (s.transactions ++ [mkTradeAt rp data s i j]).length =
      s.transactions.length + 1
    rw [List.length_append, List.length_singleton]

/-- C5 witness: the entry at index 1 of `dataC1` exits at index 2. -/
theorem C5_exit_rule_witness :
    (latest (stepSim 5 dataC1 (initState 10000) 1)).exitPrice =
      (barAt dataC1 2).swingHigh ∧
    (stepSim 5 dataC1 (initState 10000) 1).transactions.length =
      (initState 10000).transactions.length + 1 := by
  have h := (C5_exit_rule 5 dataC1 (initState 10000) 1 (by decide)).2 2
    (by decide)
  exact ⟨h.2.2.2.2.1, h.2.2.2.2.2.2.2.2.1⟩

/-- C6 counterexample: on the five-bar series `dataC6` with swing length
5 (equal to the series length), the swing value at index 2 IS defined and
the Indicator Engine succeeds, contradicting the claim that all swing
values are undefined and a validation error is raised. -/
theorem C6_counterexample :
    (swingHigh? dataC6 5 2).isSome = true ∧
    exceptOk (runIndicator dataC6 5) = true ∧
    (annotate dataC6 5).length = 1 :=
  ⟨by decide, by decide, by decide⟩

/-- C6 amended: when `swingLength` equals the series length (≥ 1), the
centered window fits at exactly one index, `swingLength / 2`, so exactly
one bar's swing values are defined and the Indicator Engine succeeds
rather than raising a validation error. -/
theorem C6_window_fits_once (data : List PriceBar) (w : Nat) (hw : 1 ≤ w)
    (hlen : data.length = w) :
    (swingHigh? data w (w / 2)).isSome = true ∧
    (∀ i, (swingHigh? data w i).isSome = true → i = w / 2) ∧
    exceptOk (runIndicator data w) = true := by
  have hfit : (swingHigh? data w (w / 2)).isSome = true := by
    rw [swingHigh?_isSome_iff data w _ hw, hlen]
    omega
  have hfitl : (swingLow? data w (w / 2)).isSome = true := by
    rw [swingLow?_isSome_iff data w _ hw, hlen]
    omega
  refine ⟨hfit, fun i hi => ?_, ?_⟩
  · rw [swingHigh?_isSome_iff data w i hw, hlen] at hi
    omega
  · have hab : (annotateBar data w (w / 2)).isSome = true :=
      annotateBar_isSome data w (w / 2) (by omega) hfit hfitl
    have hmem : w / 2 ∈ List.range data.length :=
      List.mem_range.mpr (by omega)
    have hswing :
        ¬((((List.range data.length).all fun i =>
              (swingHigh? data w i).isNone) ||
            ((List.range data.length).all fun i =>
              (swingLow? data w i).isNone)) = true) := by
      intro hcon
      rcases Bool.or_eq_true _ _ |>.mp hcon with hc | hc
      · have hn := List.all_eq_true.mp hc _ hmem
        rw [Option.isNone_iff_eq_none.mp hn] at hfit
        exact absurd hfit (by simp)
      · have hn := List.all_eq_true.mp hc _ hmem
        rw [Option.isNone_iff_eq_none.mp hn] at hfitl
        exact absurd hfitl (by simp)
    have hfib :
        ¬(((List.range data.length).all fun i =>
            (annotateBar data w i).isNone) = true) := by
      intro hcon
      have hn := List.all_eq_true.mp hcon _ hmem
      rw [Option.isNone_iff_eq_none.mp hn] at hab
      exact absurd hab (by simp)
    unfold runIndicator
    rw [if_neg (by omega), if_neg (by omega), if_neg hswing, if_neg hfib]
    rfl

/-- C6 witness: the seven-bar series `dataC6b` with swing length 7. -/
theorem C6_window_fits_once_witness :
    exceptOk (runIndicator dataC6b 7) = true :=
  (C6_window_fits_once dataC6b 7 (by norm_num) rfl).2.2

/-- C7 counterexample: the pipeline run directly with a negative starting
balance and a risk percentage of 200 (risk fraction 2, outside (0, 1])
succeeds and produces its simulation output; no validation error is
raised for out-of-range parameters. -/
theorem C7_counterexample :
    ((-100 : ℚ) ≤ 0) ∧ 1 < (200 : ℚ) / 100 ∧
    exceptOk (runBacktest (-100) 200 dataC6 5) = true :=
  ⟨by norm_num, by norm_num, by decide⟩

/-- C7 amended: the Trade Simulator itself performs no validation of the
risk fraction or the starting balance — its success coincides with the
Indicator Engine's for all parameter values; out-of-range parameters are
instead prevented by the input widgets, which clamp the starting balance
to at least 1000 and the risk percentage to between 1 and 100, making
the risk fraction lie in (0, 1] and the balance positive. -/
theorem C7_no_param_validation (b rp : ℚ) (data : List PriceBar) (w : Nat)
    (hb : 1000 ≤ b) (h1 : 1 ≤ rp) (h2 : rp ≤ 100) :
    exceptOk (runBacktest b rp data w) = exceptOk (runIndicator data w) ∧
    0 < b ∧ 0 < rp / 100 ∧ rp / 100 ≤ 1 := by
  refine ⟨?_, by linarith, div_pos (by linarith) (by norm_num),
    (div_le_one (by norm_num)).mpr h2⟩
  unfold runBacktest
  cases runIndicator data w <;> rfl

/-- C7 witness: the widget default values 10000 and 5 on `dataC6`. -/
theorem C7_no_param_validation_witness :
    exceptOk (runBacktest 10000 5 dataC6 5) =
      exceptOk (runIndicator dataC6 5) ∧
    (0 : ℚ) < 10000 ∧ (0 : ℚ) < 5 / 100 ∧ (5 : ℚ) / 100 ≤ 1 :=
  C7_no_param_validation 10000 5 dataC6 5 (by norm_num) (by norm_num)
    (by norm_num)

end FibBacktest
